import Mathlib

/-!
# CloudAttend firmware — verification of the device-side core

A shallow embedding of the CloudAttend attendance terminal's device-side
core: the roster cache (`parseStudentRegistry`, `findStudentByUid`,
`upsertStudentCacheRecord`, `loadStudentRegistry`), the response classifier
(`parseApiResponse`), the submission retry loop (`postScanEvent`) and the
Wi-Fi candidate selection (`connectToWiFi`).

Arduino `String` values are modelled as `List Char`; Arduino string
operations (`trim`, `toUpperCase`, `indexOf`, `substring`, `startsWith`)
are given as explicit list functions with the same semantics.  Hardware
and network effects (Wi-Fi scan results, join outcomes, HTTP transport
results) are inputs of the embedded functions; wall-clock timing
(`millis()`-based `elapsedMs`) is not modelled and that field stays `0`.
-/

namespace CloudAttend

/-- Arduino `String` payloads are character lists. -/
abbrev Str := List Char

/-- The character class accepted by `isspace`, used by Arduino `String::trim`. -/
def isSpaceChar (c : Char) : Bool :=
  c = ' ' || c = '\t' || c = '\n' || c = '\x0b' || c = '\x0c' || c = '\r'

/-- Arduino `String::trim`: strip leading and trailing whitespace. -/
def trimStr (s : Str) : Str :=
  ((s.dropWhile isSpaceChar).reverse.dropWhile isSpaceChar).reverse

/-- Arduino `String::toUpperCase` (ASCII `toupper` on each character). -/
def toUpperStr (s : Str) : Str := s.map Char.toUpper

/-- Arduino `String::indexOf(char, from)`: index of the first occurrence of
`c` at position `start` or later, `none` when absent (the C++ function
returns `-1`). -/
def indexOfCharFrom (s : Str) (c : Char) (start : Nat) : Option Nat :=
  ((s.drop start).findIdx? (· == c)).map (· + start)

/-- Arduino `String::indexOf(substring)`: position of the first occurrence
of `pat`, `none` when absent. -/
def indexOfStr (pat : Str) : Str → Option Nat
  | [] => if pat.isEmpty then some 0 else none
  | c :: t => if pat.isPrefixOf (c :: t) then some 0 else (indexOfStr pat t).map (· + 1)

/-- `haystack.indexOf(needle) != -1`, the containment test used throughout
`parseApiResponse`. -/
def strContains (hay pat : Str) : Bool := (indexOfStr pat hay).isSome

/-- The line splitting performed by the `parseStudentRegistry` loop
(`indexOf('\n', start)` / `substring(start, end)`): segments between
newlines, with no empty segment after a trailing newline because the loop
guard is `start < body.length()`. -/
def splitLines : Str → List Str
  | [] => []
  | c :: s =>
    if c = '\n' then [] :: splitLines s
    else
      match splitLines s with
      | [] => [[c]]
      | l :: ls => (c :: l) :: ls

/-- `struct StudentRecord { String uid; String firstName; String lastName; }`. -/
structure StudentRecord where
  uid : Str
  firstName : Str
  lastName : Str
deriving Repr, DecidableEq

/-- The per-line body of the `parseStudentRegistry` loop: trim, skip blank,
comment (`#`) and header (`uid`/`UID`/`CARD_UID`) lines, split at the first
and second comma, normalise the identifier (trim + uppercase), and reject
rows missing an identifier or first name. -/
def parseRosterLine (raw : Str) : Option StudentRecord :=
  let line := trimStr raw
  if line.isEmpty then none
  else if "#".toList.isPrefixOf line then none
  else if "uid".toList.isPrefixOf line || "UID".toList.isPrefixOf line
      || "CARD_UID".toList.isPrefixOf line then none
  else
    match line.findIdx? (· == ',') with
    | none => none
    | some firstComma =>
      let uid := toUpperStr (trimStr (line.take firstComma))
      let names : Str × Str :=
        match indexOfCharFrom line ',' (firstComma + 1) with
        | none => (line.drop (firstComma + 1), [])
        | some secondComma =>
          ((line.take secondComma).drop (firstComma + 1), line.drop (secondComma + 1))
      let firstName := trimStr names.1
      let lastName := trimStr names.2
      if uid.isEmpty || firstName.isEmpty then none
      else some ⟨uid, firstName, lastName⟩

/-- The records accepted by the `parseStudentRegistry` loop, in feed order. -/
def parseRegistryRows (body : Str) : List StudentRecord :=
  (splitLines body).filterMap parseRosterLine

/-- `bool parseStudentRegistry(const String &body)`: clears the registry,
imports the valid rows, and reports whether at least one row was imported
(`imported > 0`).  The pair is (returned flag, resulting `studentRegistry`);
the empty-body early return is subsumed because an empty body yields no
rows. -/
def parseStudentRegistry (body : Str) : Bool × List StudentRecord :=
  let recs := parseRegistryRows body
  (!recs.isEmpty, recs)

/-- `const StudentRecord *findStudentByUid(const String &uid)`: first entry
whose `uid` field equals the argument exactly (`String::operator==`). -/
def findStudentByUid (reg : List StudentRecord) (uid : Str) : Option StudentRecord :=
  reg.find? (fun r => r.uid == uid)

/-- The search-and-update loop of `upsertStudentCacheRecord`: the first
entry matching `uid` has its `firstName` replaced (the source guards the
store with `!=`, which has the same result) and its `lastName` replaced
only when the supplied one is non-empty; without a match the new record is
appended. -/
def upsertGo (uid firstName lastName : Str) : List StudentRecord → List StudentRecord
  | [] => [⟨uid, firstName, lastName⟩]
  | r :: rest =>
    if r.uid == uid then
      { r with firstName := firstName,
               lastName := if lastName.isEmpty then r.lastName else lastName } :: rest
    else r :: upsertGo uid firstName lastName rest

/-- `void upsertStudentCacheRecord(uid, firstName, lastName)`: no-op when
`uid` or `firstName` is empty, otherwise the update/append loop. -/
def upsertStudentCacheRecord (reg : List StudentRecord) (uid firstName lastName : Str) :
    List StudentRecord :=
  if uid.isEmpty || firstName.isEmpty then reg
  else upsertGo uid firstName lastName reg

/-- `bool loadStudentRegistry()`: early-outs on Wi-Fi offline, failed
`http.begin`, or a status outside `[200, 300)` leave the registry as it
was; a 2xx body is handed to `parseStudentRegistry`.  Network conditions
(`WiFi.status() == WL_CONNECTED`, `http.begin` result, HTTP status, body)
are inputs; the pair is (returned flag, resulting `studentRegistry`). -/
def loadStudentRegistry (wifiConnected beginOk : Bool) (httpCode : Int) (body : Str)
    (reg : List StudentRecord) : Bool × List StudentRecord :=
  if !wifiConnected then (false, reg)
  else if !beginOk then (false, reg)
  else if httpCode < 200 || 300 ≤ httpCode then (false, reg)
  else parseStudentRegistry body

/-- `struct ApiResponse`, with the C++ member initialisers as defaults. -/
structure ApiResponse where
  success : Bool := false
  action : Str := []
  httpCode : Int := 0
  message : Str := []
  elapsedMs : Nat := 0
  firstName : Str := []
  fullName : Str := []
deriving Repr, DecidableEq

/-- The quoted-value extraction used three times in `parseApiResponse`
(`"firstName":`, `"fullName":`, `"message":`): locate the key, then the
next two quote characters after it (the source offsets 12, 11 and 10 are
the key literals' lengths), and take the text between them when the
second quote lies strictly beyond the first. -/
def extractQuoted (body key : Str) : Option Str :=
  match indexOfStr key body with
  | none => none
  | some keyPos =>
    match indexOfCharFrom body '"' (keyPos + key.length) with
    | none => none
    | some quoteStart =>
      match indexOfCharFrom body '"' (quoteStart + 1) with
      | none => none
      | some quoteEnd =>
        if quoteStart < quoteEnd then some ((body.take quoteEnd).drop (quoteStart + 1))
        else none

/-- `ApiResponse parseApiResponse(int httpCode, const String &body)`.
`errToStr` stands for the HTTP library's `HTTPClient::errorToString`,
which renders transport error codes; it is external library code and the
classification never depends on the text it produces. -/
def parseApiResponse (errToStr : Int → Str) (httpCode : Int) (body : Str) : ApiResponse :=
  if httpCode ≤ 0 then
    { httpCode := httpCode, message := errToStr httpCode }
  else if httpCode ≠ 200 then
    { httpCode := httpCode, message := "HTTP ".toList ++ (toString httpCode).toList }
  else if body.isEmpty then
    { httpCode := httpCode, message := "Empty body".toList }
  else if strContains body "\"status\":\"ok\"".toList then
    let action :=
      if strContains body "\"action\":\"checkin\"".toList then "checkin".toList
      else if strContains body "\"action\":\"checkout\"".toList then "checkout".toList
      else if strContains body "\"action\":\"alreadyCheckedOut\"".toList then
        "alreadyCheckedOut".toList
      else if strContains body "\"action\":\"unregistered\"".toList then
        "unregistered".toList
      else "acknowledged".toList
    { success := true, action := action, httpCode := httpCode,
      firstName := (extractQuoted body "\"firstName\":".toList).getD [],
      fullName := (extractQuoted body "\"fullName\":".toList).getD [] }
  else if strContains body "\"status\":\"error\"".toList then
    { httpCode := httpCode,
      message := (extractQuoted body "\"message\":".toList).getD "Script error".toList }
  else if strContains body "unregistered".toList then
    { success := true, action := "unregistered".toList, httpCode := httpCode }
  else
    { httpCode := httpCode, message := "Unexpected body".toList }

/-- `constexpr uint8_t kMaxPostRetries = 3`. -/
def kMaxPostRetries : Nat := 3

/-- What one iteration of the `postScanEvent` loop observes from the
environment: the link was down and `connectToWiFi` failed; `http.begin`
failed; or a POST completed with some status code and body. -/
inductive AttemptOutcome
  | wifiDown
  | beginFail
  | posted (httpCode : Int) (body : Str)

/-- The `response` value after one loop iteration of `postScanEvent`:
the two early `continue` branches overwrite only `message` and `httpCode`
on the running response; a completed POST replaces it with
`parseApiResponse`'s classification. -/
def attemptResult (errToStr : Int → Str) (prev : ApiResponse) : AttemptOutcome → ApiResponse
  | .wifiDown => { prev with message := "WiFi down".toList, httpCode := 0 }
  | .beginFail => { prev with message := "Bad URL".toList, httpCode := 0 }
  | .posted code body => parseApiResponse errToStr code body

/-- Whether the iteration's outcome classifies as a success (only a
completed POST whose reply parses with `success == true` does; both
`continue` branches leave the loop running). -/
def attemptClassifiesSuccess (errToStr : Int → Str) : AttemptOutcome → Bool
  | .posted code body => (parseApiResponse errToStr code body).success
  | _ => false

/-- The `for (attempt = 0; attempt < kMaxPostRetries; attempt++)` loop of
`postScanEvent`: `fuel` is the remaining iterations, `done` the number of
iterations already consumed, `resp` the running `response` variable.  A
successful classification returns at once; otherwise the loop retries and
finally yields the last response.  The result pair is (iterations
performed, returned response). -/
def runPostAttempts (errToStr : Int → Str) (env : Nat → AttemptOutcome) :
    Nat → Nat → ApiResponse → Nat × ApiResponse
  | 0, done, resp => (done, resp)
  | fuel + 1, done, resp =>
    let r := attemptResult errToStr resp (env done)
    if r.success then (done + 1, r)
    else runPostAttempts errToStr env fuel (done + 1) r

/-- `ApiResponse postScanEvent(...)`: run the retry loop from a
default-constructed `ApiResponse`, `env i` being what attempt `i`
observes. -/
def postScanEvent (errToStr : Int → Str) (env : Nat → AttemptOutcome) : Nat × ApiResponse :=
  runPostAttempts errToStr env kMaxPostRetries 0 {}

/-- `kWifiSsids`, the known access points in declaration order. -/
def kWifiSsids : List Str :=
  ["Darshans-Phone".toList, "Shreys-Phone".toList, "Sumits-Phone".toList,
   "Vaibhavs-Phone".toList, "Someones-Phone".toList]

/-- The `detected` vector built by `connectToWiFi` from a scan result
(list of observed (SSID, RSSI) pairs in scan order): the scanned entries
whose SSID matches a known one (the source pushes the matching known
SSID, an equal string). -/
def detectedOf (scan : List (Str × Int)) : List (Str × Int) :=
  scan.filter (fun p => kWifiSsids.contains p.1)

/-- Insertion step of a descending-RSSI sort. -/
def insertByRssi (x : Str × Int) : List (Str × Int) → List (Str × Int)
  | [] => [x]
  | y :: ys => if y.2 < x.2 then x :: y :: ys else y :: insertByRssi x ys

/-- The `std::sort(detected, ..., lhs.rssi > rhs.rssi)` call.  `std::sort`
guarantees only a non-increasing-RSSI permutation (its order among equal
RSSI values is unspecified), which is exactly what is proved about this
function. -/
def sortByRssi (l : List (Str × Int)) : List (Str × Int) := l.foldr insertByRssi []

/-- The fallback loop of `connectToWiFi`: append each known SSID not
already present in `priority`, in declaration order. -/
def addMissingKnown (priority : List Str) (known : List Str) : List Str :=
  known.foldl (fun acc s => if acc.contains s then acc else acc ++ [s]) priority

/-- The full `priority` vector of `connectToWiFi`: detected known SSIDs
sorted strongest-first, then the remaining known SSIDs in declaration
order. -/
def priorityOf (scan : List (Str × Int)) : List Str :=
  addMissingKnown ((sortByRssi (detectedOf scan)).map Prod.fst) kWifiSsids

/-- The candidate loop of `connectToWiFi`: try each SSID in order and stop
at the first success.  `tryConnect` stands for
`tryConnectToNetwork(ssid)`, whose own join/poll loop is
hardware-and-time dependent; the list component records the SSIDs the
loop attempted (the per-candidate "Attempting WiFi SSID" log). -/
def tryCandidates (tryConnect : Str → Bool) : List Str → Bool × List Str
  | [] => (false, [])
  | s :: rest =>
    if tryConnect s then (true, [s])
    else
      let r := tryCandidates tryConnect rest
      (r.1, s :: r.2)

/-- `bool connectToWiFi()`: build the priority list from the scan and walk
it; the pair is (returned flag, attempted SSIDs in order). -/
def connectToWiFi (tryConnect : Str → Bool) (scan : List (Str × Int)) : Bool × List Str :=
  tryCandidates tryConnect (priorityOf scan)

/-! ## Helper lemmas -/

theorem upsertGo_not_found (uid fn ln : Str) :
    ∀ reg : List StudentRecord, (∀ r ∈ reg, r.uid ≠ uid) →
      upsertGo uid fn ln reg = reg ++ [⟨uid, fn, ln⟩]
  | [], _ => rfl
  | r :: rest, h => by
    have hr : ¬ r.uid = uid := h r (by simp)
    simp only [upsertGo, beq_iff_eq, if_neg hr, List.cons_append, List.cons.injEq, true_and]
    exact upsertGo_not_found uid fn ln rest (fun x hx => h x (List.mem_cons_of_mem _ hx))

theorem upsertGo_found (uid fn ln : Str) :
    ∀ (pre : List StudentRecord) (r : StudentRecord) (post : List StudentRecord),
      (∀ x ∈ pre, x.uid ≠ uid) → r.uid = uid →
      upsertGo uid fn ln (pre ++ r :: post) =
        pre ++ { r with firstName := fn,
                        lastName := if ln.isEmpty then r.lastName else ln } :: post
  | [], r, post, _, hr => by simp [upsertGo, hr]
  | x :: pre, r, post, h, hr => by
    have hx : ¬ x.uid = uid := h x (by simp)
    simp only [List.cons_append, upsertGo, beq_iff_eq, if_neg hx, List.cons.injEq, true_and]
    exact upsertGo_found uid fn ln pre r post (fun y hy => h y (List.mem_cons_of_mem _ hy)) hr

theorem upsertGo_lastName_kept (uid fn ln : Str) :
    ∀ (reg : List StudentRecord) (j : Nat) (hj : j < reg.length)
      (hj' : j < (upsertGo uid fn ln reg).length),
      reg[j].lastName ≠ [] → (upsertGo uid fn ln reg)[j].lastName ≠ [] := by
  intro reg
  induction reg with
  | nil => intro j hj _ _; simp at hj
  | cons r rest ih =>
    intro j hj hj' hlast
    by_cases hr : r.uid = uid
    · have heq : upsertGo uid fn ln (r :: rest) =
          { r with firstName := fn,
                   lastName := if ln.isEmpty then r.lastName else ln } :: rest := by
        simp [upsertGo, hr]
      cases j with
      | zero =>
        simp only [heq, List.getElem_cons_zero] at hlast ⊢
        by_cases hln : ln.isEmpty = true
        · rw [if_pos hln]; exact hlast
        · rw [if_neg hln]; intro hc; subst hc; exact hln rfl
      | succ j =>
        simp only [heq, List.getElem_cons_succ] at hlast ⊢
        exact hlast
    · have heq : upsertGo uid fn ln (r :: rest) = r :: upsertGo uid fn ln rest := by
        simp [upsertGo, hr]
      cases j with
      | zero =>
        simp only [heq, List.getElem_cons_zero] at hlast ⊢
        exact hlast
      | succ j =>
        have hj2 : j < rest.length := by simpa using hj
        have hj2' : j < (upsertGo uid fn ln rest).length := by
          have := hj'
          simp only [heq, List.length_cons] at this
          omega
        simp only [heq, List.getElem_cons_succ] at hlast ⊢
        exact ih j hj2 hj2' hlast

theorem mem_map_uid_upsertGo (uid fn ln : Str) :
    ∀ (reg : List StudentRecord) (x : Str),
      x ∈ (upsertGo uid fn ln reg).map StudentRecord.uid →
      x ∈ reg.map StudentRecord.uid ∨ x = uid := by
  intro reg
  induction reg with
  | nil => intro x hx; simp only [upsertGo, List.map, List.mem_singleton] at hx; exact Or.inr hx
  | cons r rest ih =>
    intro x hx
    by_cases hr : r.uid = uid
    · simp only [upsertGo, beq_iff_eq, if_pos hr, List.map_cons, List.mem_cons] at hx
      rcases hx with hx | hx
      · exact Or.inl (by simp [hx])
      · exact Or.inl (by simp [hx])
    · simp only [upsertGo, beq_iff_eq, if_neg hr, List.map_cons, List.mem_cons] at hx
      rcases hx with hx | hx
      · exact Or.inl (by simp [hx])
      · rcases ih x hx with h | h
        · exact Or.inl (by simp [h])
        · exact Or.inr h

theorem nodup_map_uid_upsertGo (uid fn ln : Str) :
    ∀ reg : List StudentRecord,
      (reg.map StudentRecord.uid).Nodup →
      ((upsertGo uid fn ln reg).map StudentRecord.uid).Nodup := by
  intro reg
  induction reg with
  | nil => intro _; simp [upsertGo]
  | cons r rest ih =>
    intro h
    simp only [List.map_cons, List.nodup_cons] at h
    by_cases hr : r.uid = uid
    · simpa [upsertGo, beq_iff_eq, if_pos hr, List.nodup_cons] using h
    · simp only [upsertGo, beq_iff_eq, if_neg hr, List.map_cons, List.nodup_cons]
      refine ⟨fun hmem => ?_, ih h.2⟩
      rcases mem_map_uid_upsertGo uid fn ln rest r.uid hmem with hm | hm
      · exact h.1 hm
      · exact hr hm

theorem nodup_map_uid_upsert (reg : List StudentRecord) (uid fn ln : Str)
    (h : (reg.map StudentRecord.uid).Nodup) :
    ((upsertStudentCacheRecord reg uid fn ln).map StudentRecord.uid).Nodup := by
  unfold upsertStudentCacheRecord
  split
  · exact h
  · exact nodup_map_uid_upsertGo uid fn ln reg h

theorem find_of_mem_map_uid :
    ∀ (reg : List StudentRecord) (key : Str), key ∈ reg.map StudentRecord.uid →
      ∃ r, findStudentByUid reg key = some r ∧ r.uid = key := by
  intro reg
  induction reg with
  | nil => intro key hk; simp at hk
  | cons r rest ih =>
    intro key hk
    by_cases hr : r.uid = key
    · exact ⟨r, by rw [findStudentByUid, List.find?_cons_of_pos _ (by simp [hr])], hr⟩
    · have hk' : key ∈ rest.map StudentRecord.uid := by
        simp only [List.map_cons, List.mem_cons] at hk
        rcases hk with h | h
        · exact absurd h.symm hr
        · exact h
      rcases ih key hk' with ⟨s, hs, hsk⟩
      refine ⟨s, ?_, hsk⟩
      rw [findStudentByUid, List.find?_cons_of_neg _ (by simp [hr])]
      rw [findStudentByUid] at hs
      exact hs

theorem attemptResult_success_eq (errToStr : Int → Str) (prev : ApiResponse)
    (o : AttemptOutcome) (h : prev.success = false) :
    (attemptResult errToStr prev o).success = attemptClassifiesSuccess errToStr o := by
  cases o <;> simp [attemptResult, attemptClassifiesSuccess, h]

theorem postScanEvent_unroll (errToStr : Int → Str) (env : Nat → AttemptOutcome) :
    postScanEvent errToStr env =
      if (attemptResult errToStr {} (env 0)).success then
        (1, attemptResult errToStr {} (env 0))
      else if (attemptResult errToStr (attemptResult errToStr {} (env 0)) (env 1)).success then
        (2, attemptResult errToStr (attemptResult errToStr {} (env 0)) (env 1))
      else
        (3, attemptResult errToStr
              (attemptResult errToStr (attemptResult errToStr {} (env 0)) (env 1)) (env 2)) := by
  show runPostAttempts errToStr env (2 + 1) 0 {} = _
  rw [runPostAttempts]
  show (if _ then _ else runPostAttempts errToStr env (1 + 1) 1 _) = _
  rw [runPostAttempts]
  show (if _ then _ else if _ then _ else runPostAttempts errToStr env (0 + 1) 2 _) = _
  rw [runPostAttempts, runPostAttempts]
  norm_num

theorem perm_insertByRssi (x : Str × Int) : ∀ l, List.Perm (insertByRssi x l) (x :: l)
  | [] => List.Perm.refl _
  | y :: ys => by
    by_cases h : y.2 < x.2
    · simp only [insertByRssi, if_pos h]
      exact List.Perm.refl _
    · simp only [insertByRssi, if_neg h]
      exact ((perm_insertByRssi x ys).cons y).trans (List.Perm.swap x y ys)

theorem pairwise_insertByRssi (x : Str × Int) :
    ∀ l, l.Pairwise (fun a b => b.2 ≤ a.2) →
      (insertByRssi x l).Pairwise (fun a b => b.2 ≤ a.2)
  | [], _ => by simp [insertByRssi]
  | y :: ys, h => by
    rcases List.pairwise_cons.mp h with ⟨hy, hys⟩
    by_cases hlt : y.2 < x.2
    · simp only [insertByRssi, if_pos hlt]
      refine List.pairwise_cons.mpr ⟨?_, h⟩
      intro z hz
      rcases List.mem_cons.mp hz with rfl | hz'
      · exact le_of_lt hlt
      · exact le_trans (hy z hz') (le_of_lt hlt)
    · simp only [insertByRssi, if_neg hlt]
      refine List.pairwise_cons.mpr ⟨?_, pairwise_insertByRssi x ys hys⟩
      intro z hz
      rcases List.mem_cons.mp ((perm_insertByRssi x ys).subset hz) with rfl | hz'
      · exact le_of_not_lt hlt
      · exact hy z hz'

theorem sortByRssi_perm (l : List (Str × Int)) : List.Perm (sortByRssi l) l := by
  induction l with
  | nil => exact List.Perm.refl _
  | cons x l ih => exact (perm_insertByRssi x (sortByRssi l)).trans (ih.cons x)

theorem sortByRssi_pairwise (l : List (Str × Int)) :
    (sortByRssi l).Pairwise (fun a b => b.2 ≤ a.2) := by
  induction l with
  | nil => simp [sortByRssi]
  | cons x l ih => exact pairwise_insertByRssi x (sortByRssi l) ih

theorem addMissingKnown_eq :
    ∀ known : List Str, known.Nodup → ∀ acc : List Str,
      addMissingKnown acc known = acc ++ known.filter (fun s => !acc.contains s) := by
  intro known
  induction known with
  | nil => intro _ acc; simp [addMissingKnown]
  | cons k ks ih =>
    intro hnd acc
    rcases List.nodup_cons.mp hnd with ⟨hk, hks⟩
    by_cases hc : acc.contains k = true
    · have hcm : k ∈ acc := by simpa using hc
      have hstep : addMissingKnown acc (k :: ks) = addMissingKnown acc ks := by
        simp [addMissingKnown, hcm]
      rw [hstep, ih hks acc, List.filter_cons, if_neg (by simpa using hcm)]
    · have hcm : k ∉ acc := by simpa using hc
      have hstep : addMissingKnown acc (k :: ks) = addMissingKnown (acc ++ [k]) ks := by
        simp [addMissingKnown, hcm]
      rw [hstep, ih hks (acc ++ [k]), List.filter_cons,
        if_pos (by simp [Bool.not_eq_true] at hc ⊢; exact hc),
        List.append_assoc, List.singleton_append]
      congr 2
      apply List.filter_congr
      intro s hs
      have hsk : ¬ s = k := fun h => hk (h ▸ hs)
      simp [hsk]

theorem mem_priorityOf (scan : List (Str × Int)) (s : Str) (hs : s ∈ kWifiSsids) :
    s ∈ priorityOf scan := by
  rw [priorityOf, addMissingKnown_eq kWifiSsids (by decide)]
  by_cases h : s ∈ (sortByRssi (detectedOf scan)).map Prod.fst
  · exact List.mem_append_left _ h
  · refine List.mem_append_right _ (List.mem_filter.mpr ⟨hs, ?_⟩)
    simpa using h

theorem tryCandidates_spec (tryConnect : Str → Bool) :
    ∀ l : List Str,
      tryCandidates tryConnect l =
        (l.any tryConnect,
         l.takeWhile (fun s => !tryConnect s)
           ++ (l.dropWhile (fun s => !tryConnect s)).take 1) := by
  intro l
  induction l with
  | nil => rfl
  | cons s rest ih =>
    by_cases h : tryConnect s = true
    · simp [tryCandidates, h, List.takeWhile_cons, List.dropWhile_cons]
    · simp [tryCandidates, h, ih, List.takeWhile_cons, List.dropWhile_cons]

/-! ## Claims -/

/-- C3: for every cache state and every `upsertStudentCacheRecord(uid,
firstName, lastName)` call with non-empty `uid` and `firstName`: when no
entry carries the identifier, a new entry is appended; when one does, the
(first) matching entry gets the new `firstName` unconditionally and the
new `lastName` only when it is non-empty; and no entry's non-empty last
name is ever replaced by an empty one. -/
theorem upsert_update_semantics (reg : List StudentRecord) (uid fn ln : Str)
    (huid : uid ≠ []) (hfn : fn ≠ []) :
    ((∀ r ∈ reg, r.uid ≠ uid) →
        upsertStudentCacheRecord reg uid fn ln = reg ++ [⟨uid, fn, ln⟩])
    ∧ (∀ (pre : List StudentRecord) (r : StudentRecord) (post : List StudentRecord),
        reg = pre ++ r :: post → (∀ x ∈ pre, x.uid ≠ uid) → r.uid = uid →
        upsertStudentCacheRecord reg uid fn ln =
          pre ++ { r with firstName := fn,
                          lastName := if ln.isEmpty then r.lastName else ln } :: post)
    ∧ (∀ (j : Nat) (hj : j < reg.length)
        (hj' : j < (upsertStudentCacheRecord reg uid fn ln).length),
        reg[j].lastName ≠ [] →
        (upsertStudentCacheRecord reg uid fn ln)[j].lastName ≠ []) := by
  have hcond : (uid.isEmpty || fn.isEmpty) = false := by
    cases uid with
    | nil => exact absurd rfl huid
    | cons c t =>
      cases fn with
      | nil => exact absurd rfl hfn
      | cons d u => rfl
  have hunfold : upsertStudentCacheRecord reg uid fn ln = upsertGo uid fn ln reg := by
    simp only [upsertStudentCacheRecord, hcond, Bool.false_eq_true, if_false]
  refine ⟨?_, ?_, ?_⟩
  · intro h
    rw [hunfold]
    exact upsertGo_not_found uid fn ln reg h
  · intro pre r post hsplit hpre hr
    rw [hunfold, hsplit]
    exact upsertGo_found uid fn ln pre r post hpre hr
  · intro j hj hj' hlast
    simp only [hunfold] at hj' ⊢
    exact upsertGo_lastName_kept uid fn ln reg j hj hj' hlast

/-- Closed instance of C3: updating an existing entry with an empty last
name keeps the stored last name and replaces the first name. -/
theorem upsert_update_semantics_witness :
    upsertStudentCacheRecord [⟨"AB".toList, "Al".toList, "Doe".toList⟩]
        "AB".toList "Jo".toList [] =
      [⟨"AB".toList, "Jo".toList, "Doe".toList⟩] := by
  have h := (upsert_update_semantics [⟨"AB".toList, "Al".toList, "Doe".toList⟩]
      "AB".toList "Jo".toList [] (by decide) (by decide)).2.1
      [] ⟨"AB".toList, "Al".toList, "Doe".toList⟩ [] rfl (by simp) rfl
  simpa using h

/-- C10: calling `upsertStudentCacheRecord` with an empty identifier or an
empty first name leaves the roster cache completely unchanged. -/
theorem upsert_empty_args_noop (reg : List StudentRecord) (uid fn ln : Str)
    (h : uid = [] ∨ fn = []) :
    upsertStudentCacheRecord reg uid fn ln = reg := by
  rcases h with h | h <;> simp [upsertStudentCacheRecord, h]

/-- Closed instance of C10: an empty identifier leaves a non-empty cache
untouched. -/
theorem upsert_empty_args_noop_witness :
    upsertStudentCacheRecord [⟨"AB".toList, "Al".toList, "Doe".toList⟩]
        [] "Jo".toList "X".toList =
      [⟨"AB".toList, "Al".toList, "Doe".toList⟩] :=
  upsert_empty_args_noop _ _ _ _ (Or.inl rfl)

/-- C7: whenever `loadStudentRegistry` fails — Wi-Fi offline, request
initialisation failure, HTTP status outside 2xx, empty body, or a body
yielding zero valid rows — it returns `false` and, starting from the
boot-time empty cache, leaves the roster cache empty. -/
theorem load_failure_leaves_cache_empty (wifi beginOk : Bool) (code : Int) (body : Str)
    (h : wifi = false ∨ beginOk = false ∨ code < 200 ∨ 300 ≤ code
      ∨ body = [] ∨ parseRegistryRows body = []) :
    loadStudentRegistry wifi beginOk code body [] = (false, []) := by
  have hrows : body = [] → parseRegistryRows body = [] := by
    rintro rfl; rfl
  unfold loadStudentRegistry
  split
  · rfl
  · split
    · rfl
    · split
      · rfl
      · rename_i hw hb hc
        simp only [Bool.not_eq_true'] at hw hb
        rw [Bool.not_eq_true] at hc
        simp only [Bool.or_eq_false_iff, decide_eq_false_iff_not, not_lt, not_le] at hc
        have hempty : parseRegistryRows body = [] := by
          rcases h with h | h | h | h | h | h
          · exact absurd h (by simp [hw])
          · exact absurd h (by simp [hb])
          · exact absurd h (by omega)
          · exact absurd h (by omega)
          · exact hrows h
          · exact h
        simp [parseStudentRegistry, hempty]

/-- Closed instance of C7: a 404 roster response reports failure and an
empty cache. -/
theorem load_failure_leaves_cache_empty_witness :
    loadStudentRegistry true true 404 "AB,Jo".toList [] = (false, []) :=
  load_failure_leaves_cache_empty true true 404 "AB,Jo".toList
    (Or.inr (Or.inr (Or.inr (Or.inl (by norm_num)))))

/-- C4 counterexample: `parseStudentRegistry` does not deduplicate, so a
feed whose valid rows repeat an identifier yields two cache entries with
the same uid. -/
theorem roster_duplicate_uid_counterexample :
    ¬ (((parseStudentRegistry "A,X\nA,Y".toList).2.map StudentRecord.uid).Nodup) := by
  decide

/-- C4 amended: provided the parsed feed carries pairwise-distinct
identifiers (which `parseStudentRegistry` itself does not enforce), the
registry built by the parse followed by any sequence of
`upsertStudentCacheRecord` calls contains at most one entry per
identifier. -/
theorem parse_then_upserts_unique_uids (body : Str) (calls : List (Str × Str × Str))
    (h : ((parseStudentRegistry body).2.map StudentRecord.uid).Nodup) :
    ((calls.foldl (fun reg c => upsertStudentCacheRecord reg c.1 c.2.1 c.2.2)
        (parseStudentRegistry body).2).map StudentRecord.uid).Nodup := by
  suffices hgen : ∀ (cs : List (Str × Str × Str)) (reg : List StudentRecord),
      (reg.map StudentRecord.uid).Nodup →
      ((cs.foldl (fun reg c => upsertStudentCacheRecord reg c.1 c.2.1 c.2.2)
          reg).map StudentRecord.uid).Nodup from
    hgen calls (parseStudentRegistry body).2 h
  intro cs
  induction cs with
  | nil => intro reg hreg; exact hreg
  | cons c rest ih =>
    intro reg hreg
    exact ih _ (nodup_map_uid_upsert reg c.1 c.2.1 c.2.2 hreg)

/-- Closed instance of the amended C4: a duplicate-free feed stays
duplicate-free through an upsert of a fresh identifier. -/
theorem parse_then_upserts_unique_uids_witness :
    ((([("C".toList, "Zoe".toList, ([] : Str))].foldl
        (fun reg c => upsertStudentCacheRecord reg c.1 c.2.1 c.2.2)
        (parseStudentRegistry "A,X\nB,Y".toList).2).map StudentRecord.uid)).Nodup :=
  parse_then_upserts_unique_uids "A,X\nB,Y".toList
    [("C".toList, "Zoe".toList, ([] : Str))] (by decide)

/-- C5 counterexample: the roster row `ab12,John` is imported under the
normalised identifier `AB12`, and `findStudentByUid` with the identifier
in its original lower case finds nothing — lookups are exact string
matches, not case-insensitive. -/
theorem find_lowercase_lookup_counterexample :
    (parseStudentRegistry "ab12,John".toList).2.map StudentRecord.uid = ["AB12".toList]
    ∧ findStudentByUid (parseStudentRegistry "ab12,John".toList).2 "ab12".toList = none := by
  decide

/-- C5 amended: for any identifier written in any letter case, when its
trimmed uppercased form is among the loaded entries' identifiers,
`findStudentByUid` queried with that normalised form returns a matching
entry; the match performed by `findStudentByUid` itself is exact, so only
normalised lookups (as produced by the device's uppercase-hex reader) are
guaranteed to succeed. -/
theorem find_after_load_normalized (body q : Str)
    (h : toUpperStr (trimStr q) ∈ (parseStudentRegistry body).2.map StudentRecord.uid) :
    ∃ r, findStudentByUid (parseStudentRegistry body).2 (toUpperStr (trimStr q)) = some r
      ∧ r.uid = toUpperStr (trimStr q) :=
  find_of_mem_map_uid _ _ h

/-- Closed instance of the amended C5: the mixed-case query `Ab12`
succeeds after normalisation. -/
theorem find_after_load_normalized_witness :
    (findStudentByUid (parseStudentRegistry "ab12,John".toList).2
      (toUpperStr (trimStr "Ab12".toList))).isSome = true := by
  obtain ⟨r, hr, -⟩ :=
    find_after_load_normalized "ab12,John".toList "Ab12".toList (by decide)
  rw [hr]
  rfl

/-- C6 counterexample: an HTTP-200 body that contains the substring
`unregistered` and no `"status":"ok"` marker, but does contain the
explicit error marker `"status":"error"`, is classified as a failure
(`success = false`, no action), not as the `Unregistered` outcome — the
error branch is tested before the bare-substring fallback. -/
theorem unregistered_error_precedence_counterexample :
    strContains "\"status\":\"error\" unregistered".toList "unregistered".toList = true
    ∧ strContains "\"status\":\"error\" unregistered".toList "\"status\":\"ok\"".toList = false
    ∧ "\"status\":\"error\" unregistered".toList ≠ []
    ∧ (parseApiResponse (fun _ => []) 200
        "\"status\":\"error\" unregistered".toList).success = false
    ∧ (parseApiResponse (fun _ => []) 200
        "\"status\":\"error\" unregistered".toList).action ≠ "unregistered".toList := by
  decide

/-- C6 amended: for every HTTP-200 response whose non-empty body contains
the substring `unregistered` but neither the structured success marker
`"status":"ok"` nor the explicit error marker `"status":"error"`,
`parseApiResponse` classifies the reply as the `Unregistered` outcome
(`success = true`, action `unregistered`). -/
theorem parse_unregistered_fallback (errToStr : Int → Str) (body : Str)
    (hne : body ≠ [])
    (hok : strContains body "\"status\":\"ok\"".toList = false)
    (herr : strContains body "\"status\":\"error\"".toList = false)
    (hunreg : strContains body "unregistered".toList = true) :
    (parseApiResponse errToStr 200 body).success = true
    ∧ (parseApiResponse errToStr 200 body).action = "unregistered".toList := by
  have hbe : body.isEmpty = false := by
    cases body with
    | nil => exact absurd rfl hne
    | cons c t => rfl
  simp only [parseApiResponse]
  rw [if_neg (by norm_num : ¬ ((200 : Int) ≤ 0)), if_neg (by norm_num : ¬ ((200 : Int) ≠ 200)),
      hbe, hok, herr, hunreg]
  simp

/-- Closed instance of the amended C6: a bare `unregistered` body maps to
the `Unregistered` outcome. -/
theorem parse_unregistered_fallback_witness :
    (parseApiResponse (fun _ => []) 200 "unregistered".toList).success = true
    ∧ (parseApiResponse (fun _ => []) 200 "unregistered".toList).action =
        "unregistered".toList :=
  parse_unregistered_fallback (fun _ => []) "unregistered".toList
    (by decide) (by decide) (by decide) (by decide)

/-- C8: every HTTP-200 response whose body contains both `"status":"ok"`
and `"action":"checkin"` classifies as the check-in outcome with
`success = true`. -/
theorem parse_checkin_classification (errToStr : Int → Str) (body : Str)
    (hok : strContains body "\"status\":\"ok\"".toList = true)
    (hact : strContains body "\"action\":\"checkin\"".toList = true) :
    (parseApiResponse errToStr 200 body).success = true
    ∧ (parseApiResponse errToStr 200 body).action = "checkin".toList := by
  have hbe : body.isEmpty = false := by
    cases body with
    | nil => exact absurd hok (by decide)
    | cons c t => rfl
  simp only [parseApiResponse]
  rw [if_neg (by norm_num : ¬ ((200 : Int) ≤ 0)), if_neg (by norm_num : ¬ ((200 : Int) ≠ 200)),
      hbe, hok, hact]
  simp

/-- Closed instance of C8. -/
theorem parse_checkin_classification_witness :
    (parseApiResponse (fun _ => []) 200
      "\"status\":\"ok\",\"action\":\"checkin\"".toList).success = true
    ∧ (parseApiResponse (fun _ => []) 200
        "\"status\":\"ok\",\"action\":\"checkin\"".toList).action = "checkin".toList :=
  parse_checkin_classification (fun _ => [])
    "\"status\":\"ok\",\"action\":\"checkin\"".toList (by decide) (by decide)

/-- C9: every HTTP-200 response whose body carries the success marker
`"status":"ok"` but none of the four recognised action markers classifies
as the `Acknowledged` outcome with `success = true`. -/
theorem parse_acknowledged_classification (errToStr : Int → Str) (body : Str)
    (hok : strContains body "\"status\":\"ok\"".toList = true)
    (hin : strContains body "\"action\":\"checkin\"".toList = false)
    (hout : strContains body "\"action\":\"checkout\"".toList = false)
    (halready : strContains body "\"action\":\"alreadyCheckedOut\"".toList = false)
    (hunreg : strContains body "\"action\":\"unregistered\"".toList = false) :
    (parseApiResponse errToStr 200 body).success = true
    ∧ (parseApiResponse errToStr 200 body).action = "acknowledged".toList := by
  have hbe : body.isEmpty = false := by
    cases body with
    | nil => exact absurd hok (by decide)
    | cons c t => rfl
  simp only [parseApiResponse]
  rw [if_neg (by norm_num : ¬ ((200 : Int) ≤ 0)), if_neg (by norm_num : ¬ ((200 : Int) ≠ 200)),
      hbe, hok, hin, hout, halready, hunreg]
  simp

/-- Closed instance of C9: an ok reply whose action token is unknown is
acknowledged. -/
theorem parse_acknowledged_classification_witness :
    (parseApiResponse (fun _ => []) 200
      "\"status\":\"ok\",\"action\":\"noted\"".toList).success = true
    ∧ (parseApiResponse (fun _ => []) 200
        "\"status\":\"ok\",\"action\":\"noted\"".toList).action = "acknowledged".toList :=
  parse_acknowledged_classification (fun _ => [])
    "\"status\":\"ok\",\"action\":\"noted\"".toList
    (by decide) (by decide) (by decide) (by decide) (by decide)

/-- C1: when every one of the `kMaxPostRetries = 3` attempts classifies as
failed, `postScanEvent` performs exactly 3 attempts and returns the
last-classified failed outcome (`success = false`) with no further
retries; and when attempt `j` is the first to classify as successful, it
returns that successful outcome immediately after `j + 1` attempts. -/
theorem postScanEvent_retry_policy (errToStr : Int → Str) (env : Nat → AttemptOutcome) :
    ((∀ i, i < kMaxPostRetries → attemptClassifiesSuccess errToStr (env i) = false) →
      postScanEvent errToStr env =
        (3, attemptResult errToStr
              (attemptResult errToStr (attemptResult errToStr {} (env 0)) (env 1)) (env 2))
      ∧ (postScanEvent errToStr env).2.success = false)
    ∧ (∀ (j : Nat) (code : Int) (body : Str), j < kMaxPostRetries →
        env j = AttemptOutcome.posted code body →
        (parseApiResponse errToStr code body).success = true →
        (∀ i, i < j → attemptClassifiesSuccess errToStr (env i) = false) →
        postScanEvent errToStr env = (j + 1, parseApiResponse errToStr code body)) := by
  constructor
  · intro h
    have s0 : (attemptResult errToStr {} (env 0)).success = false :=
      (attemptResult_success_eq errToStr {} (env 0) rfl).trans
        (h 0 (by norm_num [kMaxPostRetries]))
    have s1 : (attemptResult errToStr (attemptResult errToStr {} (env 0))
        (env 1)).success = false :=
      (attemptResult_success_eq errToStr _ (env 1) s0).trans
        (h 1 (by norm_num [kMaxPostRetries]))
    have s2 : (attemptResult errToStr (attemptResult errToStr
        (attemptResult errToStr {} (env 0)) (env 1)) (env 2)).success = false :=
      (attemptResult_success_eq errToStr _ (env 2) s1).trans
        (h 2 (by norm_num [kMaxPostRetries]))
    have key : postScanEvent errToStr env =
        (3, attemptResult errToStr
              (attemptResult errToStr (attemptResult errToStr {} (env 0)) (env 1)) (env 2)) := by
      rw [postScanEvent_unroll, if_neg (by simp [s0]), if_neg (by simp [s1])]
    exact ⟨key, by rw [key]; exact s2⟩
  · intro j code body hj henv hsucc hprev
    have hj3 : j < 3 := by simpa [kMaxPostRetries] using hj
    interval_cases j
    · have e0 : attemptResult errToStr {} (env 0) = parseApiResponse errToStr code body := by
        rw [henv]
        rfl
      rw [postScanEvent_unroll, e0, if_pos hsucc]
    · have s0 : (attemptResult errToStr {} (env 0)).success = false :=
        (attemptResult_success_eq errToStr {} (env 0) rfl).trans (hprev 0 (by norm_num))
      have e1 : attemptResult errToStr (attemptResult errToStr {} (env 0)) (env 1) =
          parseApiResponse errToStr code body := by
        rw [henv]
        rfl
      rw [postScanEvent_unroll, if_neg (by simp [s0]), e1, if_pos hsucc]
    · have s0 : (attemptResult errToStr {} (env 0)).success = false :=
        (attemptResult_success_eq errToStr {} (env 0) rfl).trans (hprev 0 (by norm_num))
      have s1 : (attemptResult errToStr (attemptResult errToStr {} (env 0))
          (env 1)).success = false :=
        (attemptResult_success_eq errToStr _ (env 1) s0).trans (hprev 1 (by norm_num))
      have e2 : attemptResult errToStr
          (attemptResult errToStr (attemptResult errToStr {} (env 0)) (env 1)) (env 2) =
          parseApiResponse errToStr code body := by
        rw [henv]
        rfl
      rw [postScanEvent_unroll, if_neg (by simp [s0]), if_neg (by simp [s1]), e2]

/-- Closed instance of C1: three consecutive HTTP-500 attempts consume all
three retries and end in a failed outcome. -/
theorem postScanEvent_retry_policy_witness :
    postScanEvent (fun _ => []) (fun _ => AttemptOutcome.posted 500 []) =
      (3, attemptResult (fun _ => [])
            (attemptResult (fun _ => [])
              (attemptResult (fun _ => []) {} (AttemptOutcome.posted 500 []))
              (AttemptOutcome.posted 500 []))
            (AttemptOutcome.posted 500 []))
    ∧ (postScanEvent (fun _ => []) (fun _ => AttemptOutcome.posted 500 [])).2.success = false :=
  (postScanEvent_retry_policy (fun _ => []) (fun _ => AttemptOutcome.posted 500 [])).1
    (by
      intro i hi
      show attemptClassifiesSuccess (fun _ => ([] : Str)) (AttemptOutcome.posted 500 []) = false
      decide)

/-- C2: `connectToWiFi` builds its candidate list from the known access
points detected in the scan ordered by non-increasing observed signal
strength (a sorted permutation of the detected set — `std::sort` leaves
the order of equal-strength entries unspecified), followed by the
remaining known access points in declaration order; every known access
point is a candidate; the loop returns true exactly when some candidate
connects, attempts the failing prefix plus the first successful candidate
only, and attempts every candidate before returning false. -/
theorem connectToWiFi_candidate_policy (tryConnect : Str → Bool) (scan : List (Str × Int)) :
    (sortByRssi (detectedOf scan)).Pairwise (fun a b => b.2 ≤ a.2)
    ∧ List.Perm (sortByRssi (detectedOf scan)) (detectedOf scan)
    ∧ priorityOf scan =
        (sortByRssi (detectedOf scan)).map Prod.fst
          ++ kWifiSsids.filter
              (fun s => !((sortByRssi (detectedOf scan)).map Prod.fst).contains s)
    ∧ (∀ s ∈ kWifiSsids, s ∈ priorityOf scan)
    ∧ (connectToWiFi tryConnect scan).1 = (priorityOf scan).any tryConnect
    ∧ (connectToWiFi tryConnect scan).2 =
        (priorityOf scan).takeWhile (fun s => !tryConnect s)
          ++ ((priorityOf scan).dropWhile (fun s => !tryConnect s)).take 1 := by
  refine ⟨sortByRssi_pairwise _, sortByRssi_perm _, ?_, ?_, ?_, ?_⟩
  · exact addMissingKnown_eq kWifiSsids (by decide) _
  · intro s hs
    exact mem_priorityOf scan s hs
  · show (tryCandidates tryConnect (priorityOf scan)).1 = _
    rw [tryCandidates_spec]
  · show (tryCandidates tryConnect (priorityOf scan)).2 = _
    rw [tryCandidates_spec]

/-- Closed instance of C2: a known SSID absent from the scan is still a
candidate via the declaration-order fallback. -/
theorem connectToWiFi_candidate_policy_witness :
    "Darshans-Phone".toList ∈ priorityOf [("Shreys-Phone".toList, -30)] :=
  (connectToWiFi_candidate_policy (fun _ => false) [("Shreys-Phone".toList, -30)]).2.2.2.1
    "Darshans-Phone".toList (by decide)

end CloudAttend
